import Mathlib

/-!
Verification of the per-connection streaming recognition session protocol
implemented in `vosk_ws.py`.

The embedding models the per-connection message loop as a pure function
over an explicit world state:
- the recognizer engine is modelled as a script of per-frame outcomes
  (a completed utterance boundary with its result text, an interim text,
  or a decode failure), consumed one entry per audio frame fed;
- the transport send is modelled as a script of booleans (does the next
  `websocket.send` succeed?) together with a trace of the messages that
  were successfully sent;
- Python exceptions are modelled with `Except Unit`.

Outbound events are modelled at the JSON-value level: the code always
sends `json.dumps` of an object with a single key `"text"`.
-/

/-- Outcome of feeding one audio chunk to the recognizer
(`rec.AcceptWaveform` plus reading `Result`/`PartialResult`):
either `AcceptWaveform` returned True and the settled result text is `t`
(`boundary t`), or it returned False and the current interim text is `t`
(`interim t`), or the engine raised (`engineFail`). -/
inductive RecOutcome where
  | engineFail : RecOutcome
  | boundary : String → RecOutcome
  | interim : String → RecOutcome
deriving Repr, DecidableEq

/-- A JSON value, as far as the wire format of this server needs. -/
inductive Json where
  | str : String → Json
  | obj : List (String × Json) → Json
deriving Repr

/-- An inbound transport message: a binary frame (a byte sequence,
modelled as `List Nat`) or a non-binary (text) message. -/
inductive Msg where
  | bin : List Nat → Msg
  | txt : String → Msg
deriving Repr, DecidableEq

/-- The external world of one connection: the scripted recognizer
responses, the scripted transport send successes (an empty script means
every send succeeds), and the trace of successfully sent messages. -/
structure World where
  recScript : List RecOutcome
  sendScript : List Bool
  sent : List Json
deriving Repr

/-- Feed one audio chunk to the recognizer: consume the next scripted
outcome (an exhausted script behaves as silence: interim text `""`). -/
def recFeed (w : World) : World × RecOutcome :=
  match w.recScript with
  | [] => (w, RecOutcome.interim "")
  | o :: rest => ({ w with recScript := rest }, o)

/-- Attempt `websocket.send j`: consume the next scripted success flag
(empty script defaults to success); on success the message is appended to
the trace, on failure an exception is signalled to the caller. -/
def trySend (w : World) (j : Json) : World × Bool :=
  match w.sendScript with
  | [] => ({ w with sent := w.sent ++ [j] }, true)
  | b :: rest =>
      if b then ({ w with sendScript := rest, sent := w.sent ++ [j] }, true)
      else ({ w with sendScript := rest }, false)

/-- Does the next send succeed in world `w`? -/
def nextSendOk (w : World) : Bool := w.sendScript.headD true

/-- The JSON value `json.dumps` serializes for an outbound event:
an object with the single key `"text"` holding the string `t`. -/
def eventJson (t : String) : Json := Json.obj [("text", Json.str t)]

/-- Python truthiness of an optional string (`if final:`): `None` and the
empty string are falsy, every other string is truthy. -/
def pyTruthy : Option String → Bool
  | none => false
  | some s => decide (s ≠ "")

/-- Embedding of `validate_message` from `vosk_ws.py`: only byte sequences are valid;
any other message type is rejected (and later skipped by the loop). -/
def validate_message : Msg → Bool
  | Msg.bin _ => true
  | Msg.txt _ => false

/-- Embedding of `handle_end_of_stream` from `vosk_ws.py`: resolve the outbound text
(`final` if truthy, else `partial` if truthy, else `""`), send the
single-key event, and report whether the send raised. -/
def handle_end_of_stream (w : World) (lastPart lastFin : Option String) :
    World × Except Unit Unit :=
  if pyTruthy lastFin then
    match trySend w (eventJson (lastFin.getD "")) with
    | (w2, ok) => (w2, if ok then Except.ok () else Except.error ())
  else if pyTruthy lastPart then
    match trySend w (eventJson (lastPart.getD "")) with
    | (w2, ok) => (w2, if ok then Except.ok () else Except.error ())
  else
    match trySend w (eventJson "") with
    | (w2, ok) => (w2, if ok then Except.ok () else Except.error ())

/-- Embedding of `process_audio_chunk` from `vosk_ws.py`: a zero-length message is the
end-of-stream signal (flush, then reset both tracking variables to
`None`); otherwise the chunk is fed to the recognizer and exactly one of
the tracking variables is updated, and only with non-empty text.
An engine failure propagates as an exception. -/
def process_audio_chunk (w : World) (message : List Nat)
    (lastPart lastFin : Option String) :
    World × Except Unit (Option String × Option String) :=
  if message.length = 0 then
    match handle_end_of_stream w lastPart lastFin with
    | (w2, Except.ok _) => (w2, Except.ok (none, none))
    | (w2, Except.error e) => (w2, Except.error e)
  else
    match recFeed w with
    | (w2, RecOutcome.engineFail) => (w2, Except.error ())
    | (w2, RecOutcome.boundary t) =>
        if t = "" then (w2, Except.ok (lastPart, lastFin))
        else (w2, Except.ok (lastPart, some t))
    | (w2, RecOutcome.interim t) =>
        if t = "" then (w2, Except.ok (lastPart, lastFin))
        else (w2, Except.ok (some t, lastFin))

/-- Embedding of `main_message_loop` from `vosk_ws.py`: iterate the inbound messages,
skip messages that fail validation, process the rest, and catch any
per-message exception, continuing with the tracking state unchanged.
Returns the final world and tracking state. -/
def main_message_loop (w : World) (msgs : List Msg)
    (lastPart lastFin : Option String) :
    World × Option String × Option String :=
  match msgs with
  | [] => (w, lastPart, lastFin)
  | m :: rest =>
      if validate_message m = false then
        main_message_loop w rest lastPart lastFin
      else
        match m with
        | Msg.bin data =>
            match process_audio_chunk w data lastPart lastFin with
            | (w2, Except.ok (p2, f2)) => main_message_loop w2 rest p2 f2
            | (w2, Except.error _) => main_message_loop w2 rest lastPart lastFin
        | Msg.txt _ => main_message_loop w rest lastPart lastFin

/-- Run the message loop of one connection from a fresh session: empty trace,
both tracking variables unset (`partial = final = None` in the source). -/
def runLoop (rs : List RecOutcome) (ss : List Bool) (msgs : List Msg) :
    World × Option String × Option String :=
  main_message_loop ⟨rs, ss, []⟩ msgs none none

/-- Modelled from the spec: the flush fallback resolution as the spec
words it — the text is `lastFinal` if set, else `lastPartial` if set,
else the empty string (where "set" means present, `Option.isSome`). -/
def resolveSpec (lastPart lastFin : Option String) : String :=
  match lastFin with
  | some t => t
  | none =>
      match lastPart with
      | some t => t
      | none => ""

/-- A tracking variable is in normal form when it is either unset or a
non-empty string; the loop only ever stores non-empty texts. -/
def normalOpt : Option String → Prop
  | none => True
  | some s => s ≠ ""

theorem trySend_ok (w : World) (j : Json) (h : nextSendOk w = true) :
    trySend w j
      = ({ w with sendScript := w.sendScript.tail, sent := w.sent ++ [j] }, true) := by
  unfold nextSendOk at h
  unfold trySend
  cases hs : w.sendScript with
  | nil => simp
  | cons b rest =>
      rw [hs] at h
      simp only [List.headD_cons] at h
      subst h
      simp

theorem trySend_fail (w : World) (j : Json) (ss : List Bool)
    (h : w.sendScript = false :: ss) :
    trySend w j = ({ w with sendScript := ss }, false) := by
  unfold trySend
  rw [h]
  simp

theorem hes_ok (w : World) (p f : Option String)
    (hp : normalOpt p) (hf : normalOpt f) (h : nextSendOk w = true) :
    handle_end_of_stream w p f
      = ({ w with
             sendScript := w.sendScript.tail,
             sent := w.sent ++ [eventJson (resolveSpec p f)] }, Except.ok ()) := by
  cases f with
  | some t =>
      have ht : t ≠ "" := hf
      simp [handle_end_of_stream, pyTruthy, ht, resolveSpec, trySend_ok w _ h]
  | none =>
      cases p with
      | some t =>
          have ht : t ≠ "" := hp
          simp [handle_end_of_stream, pyTruthy, ht, resolveSpec, trySend_ok w _ h]
      | none =>
          simp [handle_end_of_stream, pyTruthy, resolveSpec, trySend_ok w _ h]

theorem hes_ok_exists (w : World) (p f : Option String) (h : nextSendOk w = true) :
    ∃ t, handle_end_of_stream w p f
      = ({ w with
             sendScript := w.sendScript.tail,
             sent := w.sent ++ [eventJson t] }, Except.ok ()) := by
  unfold handle_end_of_stream
  by_cases hf : pyTruthy f = true
  · exact ⟨f.getD "", by simp [hf, trySend_ok w _ h]⟩
  · by_cases hp : pyTruthy p = true
    · exact ⟨p.getD "", by simp [hf, hp, trySend_ok w _ h]⟩
    · exact ⟨"", by simp [hf, hp, trySend_ok w _ h]⟩

theorem hes_fail (w : World) (p f : Option String) (ss : List Bool)
    (h : w.sendScript = false :: ss) :
    handle_end_of_stream w p f = ({ w with sendScript := ss }, Except.error ()) := by
  unfold handle_end_of_stream
  by_cases hf : pyTruthy f = true
  · simp [hf, trySend_fail w _ ss h]
  · by_cases hp : pyTruthy p = true
    · simp [hf, hp, trySend_fail w _ ss h]
    · simp [hf, hp, trySend_fail w _ ss h]

theorem flush_ok (w : World) (p f : Option String)
    (hp : normalOpt p) (hf : normalOpt f) (h : nextSendOk w = true) :
    process_audio_chunk w [] p f
      = ({ w with
             sendScript := w.sendScript.tail,
             sent := w.sent ++ [eventJson (resolveSpec p f)] }, Except.ok (none, none)) := by
  simp [process_audio_chunk, hes_ok w p f hp hf h]

theorem flush_ok_exists (w : World) (p f : Option String) (h : nextSendOk w = true) :
    ∃ t, process_audio_chunk w [] p f
      = ({ w with
             sendScript := w.sendScript.tail,
             sent := w.sent ++ [eventJson t] }, Except.ok (none, none)) := by
  obtain ⟨t, ht⟩ := hes_ok_exists w p f h
  exact ⟨t, by simp [process_audio_chunk, ht]⟩

theorem pac_normal (w : World) (m : List Nat) (p f p2 f2 : Option String) (w2 : World)
    (hp : normalOpt p) (hf : normalOpt f)
    (h : process_audio_chunk w m p f = (w2, Except.ok (p2, f2))) :
    normalOpt p2 ∧ normalOpt f2 := by
  unfold process_audio_chunk at h
  split at h
  · split at h
    · simp only [Prod.mk.injEq, Except.ok.injEq] at h
      obtain ⟨-, h2, h3⟩ := h
      subst h2
      subst h3
      exact ⟨trivial, trivial⟩
    · simp at h
  · split at h
    · simp at h
    · split at h
      · simp only [Prod.mk.injEq, Except.ok.injEq] at h
        obtain ⟨-, h2, h3⟩ := h
        subst h2
        subst h3
        exact ⟨hp, hf⟩
      · next ht =>
          simp only [Prod.mk.injEq, Except.ok.injEq] at h
          obtain ⟨-, h2, h3⟩ := h
          subst h2
          subst h3
          exact ⟨hp, ht⟩
    · split at h
      · simp only [Prod.mk.injEq, Except.ok.injEq] at h
        obtain ⟨-, h2, h3⟩ := h
        subst h2
        subst h3
        exact ⟨hp, hf⟩
      · next ht =>
          simp only [Prod.mk.injEq, Except.ok.injEq] at h
          obtain ⟨-, h2, h3⟩ := h
          subst h2
          subst h3
          exact ⟨ht, hf⟩

theorem loop_normal (msgs : List Msg) (w : World) (p f : Option String)
    (hp : normalOpt p) (hf : normalOpt f) :
    normalOpt (main_message_loop w msgs p f).2.1 ∧
    normalOpt (main_message_loop w msgs p f).2.2 := by
  induction msgs generalizing w p f with
  | nil => exact ⟨hp, hf⟩
  | cons m rest ih =>
      cases m with
      | txt s => simpa [main_message_loop, validate_message] using ih w p f hp hf
      | bin data =>
          rcases hpac : process_audio_chunk w data p f with ⟨w2, r⟩
          cases r with
          | ok pf =>
              rcases pf with ⟨p2, f2⟩
              have hn := pac_normal w data p f p2 f2 w2 hp hf hpac
              simpa [main_message_loop, validate_message, hpac] using ih w2 p2 f2 hn.1 hn.2
          | error e =>
              simpa [main_message_loop, validate_message, hpac] using ih w2 p f hp hf

theorem trySend_sent_mem (w : World) (j e : Json)
    (h : e ∈ ((trySend w j).1).sent) : e ∈ w.sent ∨ e = j := by
  unfold trySend at h
  rcases hs : w.sendScript with _ | ⟨b, rest⟩
  · rw [hs] at h
    simp at h
    exact h
  · rw [hs] at h
    by_cases hb : b = true
    · subst hb
      simp at h
      exact h
    · simp [hb] at h
      exact Or.inl h

theorem hes_sent_mem (w : World) (p f : Option String) (e : Json)
    (h : e ∈ ((handle_end_of_stream w p f).1).sent) :
    e ∈ w.sent ∨ ∃ t, e = eventJson t := by
  unfold handle_end_of_stream at h
  by_cases hf : pyTruthy f = true
  · simp only [hf, if_true] at h
    rcases trySend_sent_mem w _ e h with h1 | h1
    · exact Or.inl h1
    · exact Or.inr ⟨_, h1⟩
  · by_cases hp : pyTruthy p = true
    · simp only [hf, hp, if_true, if_false] at h
      rcases trySend_sent_mem w _ e h with h1 | h1
      · exact Or.inl h1
      · exact Or.inr ⟨_, h1⟩
    · simp only [hf, hp, if_false] at h
      rcases trySend_sent_mem w _ e h with h1 | h1
      · exact Or.inl h1
      · exact Or.inr ⟨_, h1⟩

theorem pac_sent_mem (w : World) (m : List Nat) (p f : Option String) (e : Json)
    (h : e ∈ ((process_audio_chunk w m p f).1).sent) :
    e ∈ w.sent ∨ ∃ t, e = eventJson t := by
  unfold process_audio_chunk at h
  by_cases hm : m.length = 0
  · simp only [hm, if_true] at h
    rcases hh : handle_end_of_stream w p f with ⟨w2, r⟩
    rw [hh] at h
    cases r with
    | ok u => exact hes_sent_mem w p f e (by rw [hh]; exact h)
    | error u => exact hes_sent_mem w p f e (by rw [hh]; exact h)
  · simp only [hm, if_false] at h
    rcases hr : recFeed w with ⟨w2, o⟩
    have hw2 : w2.sent = w.sent := by
      unfold recFeed at hr
      rcases hs : w.recScript with _ | ⟨a, rest⟩
      · rw [hs] at hr
        cases hr
        rfl
      · rw [hs] at hr
        cases hr
        rfl
    rw [hr] at h
    cases o with
    | engineFail =>
        simp at h
        exact Or.inl (hw2 ▸ h)
    | boundary t =>
        by_cases ht : t = ""
        · simp [ht] at h
          exact Or.inl (hw2 ▸ h)
        · simp [ht] at h
          exact Or.inl (hw2 ▸ h)
    | interim t =>
        by_cases ht : t = ""
        · simp [ht] at h
          exact Or.inl (hw2 ▸ h)
        · simp [ht] at h
          exact Or.inl (hw2 ▸ h)

theorem loop_sent_mem (msgs : List Msg) (w : World) (p f : Option String) (e : Json)
    (h : e ∈ ((main_message_loop w msgs p f).1).sent) :
    e ∈ w.sent ∨ ∃ t, e = eventJson t := by
  induction msgs generalizing w p f with
  | nil => exact Or.inl h
  | cons m rest ih =>
      cases m with
      | txt s =>
          rw [main_message_loop] at h
          simp only [validate_message] at h
          exact ih w p f (by simpa using h)
      | bin data =>
          rcases hpac : process_audio_chunk w data p f with ⟨w2, r⟩
          have hmem : e ∈ ((process_audio_chunk w data p f).1).sent →
              e ∈ w.sent ∨ ∃ t, e = eventJson t := pac_sent_mem w data p f e
          cases r with
          | ok pf =>
              rcases pf with ⟨p2, f2⟩
              rw [main_message_loop] at h
              simp only [validate_message, hpac] at h
              rcases ih w2 p2 f2 (by simpa using h) with h1 | h1
              · exact hmem (by rw [hpac]; exact h1)
              · exact Or.inr h1
          | error u =>
              rw [main_message_loop] at h
              simp only [validate_message, hpac] at h
              rcases ih w2 p f (by simpa using h) with h1 | h1
              · exact hmem (by rw [hpac]; exact h1)
              · exact Or.inr h1

theorem recFeed_sent (w : World) : ((recFeed w).1).sent = w.sent := by
  unfold recFeed
  cases h : w.recScript <;> rfl

theorem pac_audio_sent (w : World) (data : List Nat) (p f : Option String)
    (hd : data ≠ []) :
    ((process_audio_chunk w data p f).1).sent = w.sent := by
  have hm : ¬ data.length = 0 := by simpa using hd
  unfold process_audio_chunk
  rw [if_neg hm]
  cases ho : recFeed w with
  | mk w2 o =>
      have hw2 : w2.sent = w.sent := by
        have hr := recFeed_sent w
        rw [ho] at hr
        exact hr
      cases o with
      | engineFail => simpa using hw2
      | boundary t => by_cases ht : t = "" <;> simpa [ht] using hw2
      | interim t => by_cases ht : t = "" <;> simpa [ht] using hw2

example : runLoop [RecOutcome.interim "hel"] [] [Msg.bin [1], Msg.bin []]
    = (⟨[], [], [eventJson "hel"]⟩, none, none) := rfl

example : runLoop [RecOutcome.interim "hello", RecOutcome.boundary "hello world"] []
      [Msg.bin [1], Msg.bin [2], Msg.bin []]
    = (⟨[], [], [eventJson "hello world"]⟩, none, none) := rfl

example : runLoop [] [] [Msg.bin []]
    = (⟨[], [], [eventJson ""]⟩, none, none) := rfl

/-- C1: for any initial world and any sequence of prior messages
processed from the cleared tracking state (the state at connection start
and immediately after any flush), feeding the zero-length end-of-stream
frame appends exactly one outbound event to the trace, whose text is
`lastFinal` if set, else `lastPartial` if set, else the empty string,
and the call returns the reset tracking state (given the transport
accepts the send). -/
theorem C1_flush_emits_fallback (w0 : World) (msgs : List Msg)
    (h : nextSendOk (main_message_loop w0 msgs none none).1 = true) :
    process_audio_chunk (main_message_loop w0 msgs none none).1 []
        (main_message_loop w0 msgs none none).2.1
        (main_message_loop w0 msgs none none).2.2
      = ({ (main_message_loop w0 msgs none none).1 with
             sendScript := ((main_message_loop w0 msgs none none).1).sendScript.tail,
             sent := ((main_message_loop w0 msgs none none).1).sent
               ++ [eventJson (resolveSpec (main_message_loop w0 msgs none none).2.1
                     (main_message_loop w0 msgs none none).2.2)] },
         Except.ok (none, none)) := by
  have hn := loop_normal msgs w0 none none trivial trivial
  exact flush_ok _ _ _ hn.1 hn.2 h

/-- C2: after a zero-length frame is processed (with the send accepted),
the returned tracking state has both `lastPartial` and `lastFinal` unset,
and processing a second zero-length frame from that state appends the
event with the empty text. -/
theorem C2_reset_after_flush (w : World) (p f : Option String)
    (h1 : nextSendOk w = true)
    (h2 : nextSendOk (process_audio_chunk w [] p f).1 = true) :
    (process_audio_chunk w [] p f).2 = Except.ok (none, none) ∧
    ((process_audio_chunk (process_audio_chunk w [] p f).1 [] none none).1).sent
      = ((process_audio_chunk w [] p f).1).sent ++ [eventJson ""] := by
  obtain ⟨t, ht⟩ := flush_ok_exists w p f h1
  constructor
  · rw [ht]
  · have h3 := flush_ok (process_audio_chunk w [] p f).1 none none trivial trivial h2
    rw [h3]
    rfl

/-- C3: a non-empty audio frame never adds an outbound event to the
trace, while the zero-length end-of-stream frame from the same state adds
exactly one (when the transport accepts the send). -/
theorem C3_audio_silent_flush_sends_one (w : World) (data : List Nat)
    (p f : Option String) (hd : data ≠ []) (hs : nextSendOk w = true) :
    ((process_audio_chunk w data p f).1).sent = w.sent ∧
    ∃ t, ((process_audio_chunk w [] p f).1).sent = w.sent ++ [eventJson t] := by
  refine ⟨pac_audio_sent w data p f hd, ?_⟩
  obtain ⟨t, ht⟩ := flush_ok_exists w p f hs
  exact ⟨t, by rw [ht]⟩

/-- C4: whenever processing one inbound binary frame raises an error (a
recognizer failure or a failed send), the loop catches it: the tracking
state `lastPartial`/`lastFinal` is left unchanged and the loop continues
with the remaining messages. -/
theorem C4_error_caught_loop_continues (w : World) (data : List Nat)
    (p f : Option String) (rest : List Msg)
    (he : (process_audio_chunk w data p f).2 = Except.error ()) :
    main_message_loop w (Msg.bin data :: rest) p f
      = main_message_loop (process_audio_chunk w data p f).1 rest p f := by
  rcases hpac : process_audio_chunk w data p f with ⟨w2, r⟩
  cases r with
  | ok pf =>
      rw [hpac] at he
      simp at he
  | error u =>
      simp [main_message_loop, validate_message, hpac]

/-- C5: an inbound message that is not a byte sequence fails validation
and is skipped: the world is untouched (no send, recognizer not fed) and
the loop continues on the remaining messages with the tracking state
unchanged. -/
theorem C5_nonbinary_discarded (w : World) (s : String) (rest : List Msg)
    (p f : Option String) :
    validate_message (Msg.txt s) = false ∧
    main_message_loop w (Msg.txt s :: rest) p f = main_message_loop w rest p f :=
  ⟨rfl, by simp [main_message_loop, validate_message]⟩

/-- C6: on a non-empty audio frame, a completed utterance boundary with
empty result text leaves `lastFinal` unchanged and a non-empty one sets
it; with no boundary, empty interim text leaves `lastPartial` unchanged
and non-empty interim text sets it; in each case the other variable is
untouched. -/
theorem C6_frame_updates (w : World) (data : List Nat) (p f : Option String)
    (t : String) (rs : List RecOutcome) (hd : data ≠ []) :
    (w.recScript = RecOutcome.boundary t :: rs →
      process_audio_chunk w data p f
        = ({ w with recScript := rs },
           Except.ok (p, if t = "" then f else some t))) ∧
    (w.recScript = RecOutcome.interim t :: rs →
      process_audio_chunk w data p f
        = ({ w with recScript := rs },
           Except.ok ((if t = "" then p else some t), f))) := by
  have hm : ¬ data.length = 0 := by simpa using hd
  constructor
  · intro hrec
    unfold process_audio_chunk
    rw [if_neg hm]
    unfold recFeed
    rw [hrec]
    by_cases ht : t = "" <;> simp [ht]
  · intro hrec
    unfold process_audio_chunk
    rw [if_neg hm]
    unfold recFeed
    rw [hrec]
    by_cases ht : t = "" <;> simp [ht]

/-- C7: every message ever sent on the connection, over any run of the
loop from a fresh session, is a JSON object with exactly one key,
`"text"`, holding a (possibly empty) string. -/
theorem C7_wire_format (rs : List RecOutcome) (ss : List Bool) (msgs : List Msg) :
    ∀ e ∈ ((runLoop rs ss msgs).1).sent, ∃ t, e = eventJson t := by
  intro e he
  rcases loop_sent_mem msgs ⟨rs, ss, []⟩ none none e he with h1 | h1
  · simp at h1
  · exact h1

/-- C8: if the transport rejects the flush send, `process_audio_chunk`
raises instead of returning the reset state, nothing is added to the
trace, and the loop catches the error and continues with the tracking
state it had before the failed flush. -/
theorem C8_failed_send_no_reset (w : World) (ss : List Bool) (rest : List Msg)
    (p f : Option String) (h : w.sendScript = false :: ss) :
    process_audio_chunk w [] p f = ({ w with sendScript := ss }, Except.error ()) ∧
    main_message_loop w (Msg.bin [] :: rest) p f
      = main_message_loop { w with sendScript := ss } rest p f := by
  have h1 : process_audio_chunk w [] p f
      = ({ w with sendScript := ss }, Except.error ()) := by
    simp [process_audio_chunk, hes_fail w p f ss h]
  exact ⟨h1, by simp [main_message_loop, validate_message, h1]⟩

/-- C9: a non-empty audio frame on which the recognizer reports a
completed utterance boundary leaves the stored `lastPartial` exactly as
it was, whatever the boundary text. -/
theorem C9_boundary_keeps_stored_interim (w : World) (data : List Nat)
    (p f : Option String) (t : String) (rs : List RecOutcome)
    (hd : data ≠ []) (h : w.recScript = RecOutcome.boundary t :: rs) :
    ∃ f2, process_audio_chunk w data p f
      = ({ w with recScript := rs }, Except.ok (p, f2)) := by
  have hm : ¬ data.length = 0 := by simpa using hd
  refine ⟨if t = "" then f else some t, ?_⟩
  unfold process_audio_chunk
  rw [if_neg hm]
  unfold recFeed
  rw [h]
  by_cases ht : t = "" <;> simp [ht]

/-- C10: an inbound empty text (non-byte) message never reaches the
zero-length flush check: it fails validation and is skipped with the
world untouched (no event emitted, recognizer not fed) and the tracking
state unreset. -/
theorem C10_empty_text_message_not_a_flush (w : World) (rest : List Msg)
    (p f : Option String) :
    validate_message (Msg.txt "") = false ∧
    main_message_loop w (Msg.txt "" :: rest) p f = main_message_loop w rest p f ∧
    (main_message_loop w [Msg.txt ""] p f) = (w, p, f) :=
  ⟨rfl, by simp [main_message_loop, validate_message],
   by simp [main_message_loop, validate_message]⟩

/-- Concrete instance of C1: one audio frame yielding a final result,
then the end-of-stream frame. -/
theorem C1_flush_emits_fallback_witness :
    nextSendOk (main_message_loop ⟨[RecOutcome.boundary "done"], [], []⟩
        [Msg.bin [7]] none none).1 = true ∧
    process_audio_chunk
        (main_message_loop ⟨[RecOutcome.boundary "done"], [], []⟩ [Msg.bin [7]] none none).1 []
        (main_message_loop ⟨[RecOutcome.boundary "done"], [], []⟩ [Msg.bin [7]] none none).2.1
        (main_message_loop ⟨[RecOutcome.boundary "done"], [], []⟩ [Msg.bin [7]] none none).2.2
      = ({ (main_message_loop ⟨[RecOutcome.boundary "done"], [], []⟩ [Msg.bin [7]] none none).1 with
             sendScript := ((main_message_loop ⟨[RecOutcome.boundary "done"], [], []⟩
               [Msg.bin [7]] none none).1).sendScript.tail,
             sent := ((main_message_loop ⟨[RecOutcome.boundary "done"], [], []⟩
               [Msg.bin [7]] none none).1).sent
               ++ [eventJson (resolveSpec
                     (main_message_loop ⟨[RecOutcome.boundary "done"], [], []⟩
                       [Msg.bin [7]] none none).2.1
                     (main_message_loop ⟨[RecOutcome.boundary "done"], [], []⟩
                       [Msg.bin [7]] none none).2.2)] },
         Except.ok (none, none)) :=
  ⟨rfl, C1_flush_emits_fallback ⟨[RecOutcome.boundary "done"], [], []⟩ [Msg.bin [7]] rfl⟩

/-- Concrete instance of C2: flushing from a state with only a stored
interim text, then flushing again. -/
theorem C2_reset_after_flush_witness :
    nextSendOk ⟨[], [], []⟩ = true ∧
    nextSendOk (process_audio_chunk ⟨[], [], []⟩ [] (some "a") none).1 = true ∧
    ((process_audio_chunk ⟨[], [], []⟩ [] (some "a") none).2 = Except.ok (none, none) ∧
     ((process_audio_chunk (process_audio_chunk ⟨[], [], []⟩ [] (some "a") none).1
         [] none none).1).sent
       = ((process_audio_chunk ⟨[], [], []⟩ [] (some "a") none).1).sent ++ [eventJson ""]) :=
  ⟨rfl, rfl, C2_reset_after_flush ⟨[], [], []⟩ (some "a") none rfl rfl⟩

/-- Concrete instance of C3: one non-empty frame adds nothing to the
trace, the end-of-stream frame adds one event. -/
theorem C3_audio_silent_flush_sends_one_witness :
    ([1] : List Nat) ≠ [] ∧
    nextSendOk ⟨[], [], []⟩ = true ∧
    (((process_audio_chunk ⟨[], [], []⟩ [1] none none).1).sent = (⟨[], [], []⟩ : World).sent ∧
     ∃ t, ((process_audio_chunk ⟨[], [], []⟩ [] none none).1).sent
       = (⟨[], [], []⟩ : World).sent ++ [eventJson t]) :=
  ⟨by decide, rfl, C3_audio_silent_flush_sends_one ⟨[], [], []⟩ [1] none none (by decide) rfl⟩

/-- Concrete instance of C4: a recognizer failure on one frame is caught
and the loop continues with unchanged state. -/
theorem C4_error_caught_loop_continues_witness :
    (process_audio_chunk ⟨[RecOutcome.engineFail], [], []⟩ [0] none none).2
      = Except.error () ∧
    main_message_loop ⟨[RecOutcome.engineFail], [], []⟩ [Msg.bin [0]] none none
      = main_message_loop (process_audio_chunk ⟨[RecOutcome.engineFail], [], []⟩
          [0] none none).1 [] none none :=
  ⟨rfl, C4_error_caught_loop_continues ⟨[RecOutcome.engineFail], [], []⟩ [0] none none [] rfl⟩

/-- Concrete instance of C6: a boundary frame with non-empty text. -/
theorem C6_frame_updates_witness :
    ([1] : List Nat) ≠ [] ∧
    (((⟨[RecOutcome.boundary "yo"], [], []⟩ : World).recScript
        = RecOutcome.boundary "yo" :: [] →
      process_audio_chunk ⟨[RecOutcome.boundary "yo"], [], []⟩ [1] none none
        = ({ (⟨[RecOutcome.boundary "yo"], [], []⟩ : World) with recScript := [] },
           Except.ok (none, if "yo" = "" then none else some "yo"))) ∧
     ((⟨[RecOutcome.boundary "yo"], [], []⟩ : World).recScript
        = RecOutcome.interim "yo" :: [] →
      process_audio_chunk ⟨[RecOutcome.boundary "yo"], [], []⟩ [1] none none
        = ({ (⟨[RecOutcome.boundary "yo"], [], []⟩ : World) with recScript := [] },
           Except.ok ((if "yo" = "" then none else some "yo"), none)))) :=
  ⟨by decide, C6_frame_updates ⟨[RecOutcome.boundary "yo"], [], []⟩ [1] none none
    "yo" [] (by decide)⟩

/-- Concrete instance of C7: the event emitted by a bare end-of-stream
frame has the single-key wire shape. -/
theorem C7_wire_format_witness :
    (eventJson "" ∈ ((runLoop [] [] [Msg.bin []]).1).sent) ∧
    (∃ t, eventJson "" = eventJson t) :=
  ⟨by show eventJson "" ∈ [eventJson ""]; exact List.mem_singleton.mpr rfl,
   C7_wire_format [] [] [Msg.bin []] (eventJson "")
     (by show eventJson "" ∈ [eventJson ""]; exact List.mem_singleton.mpr rfl)⟩

/-- Concrete instance of C8: the transport rejects the flush send and the
stored interim text survives for the rest of the loop. -/
theorem C8_failed_send_no_reset_witness :
    (⟨[], [false], []⟩ : World).sendScript = false :: [] ∧
    (process_audio_chunk ⟨[], [false], []⟩ [] (some "x") none
       = ({ (⟨[], [false], []⟩ : World) with sendScript := [] }, Except.error ()) ∧
     main_message_loop ⟨[], [false], []⟩ [Msg.bin []] (some "x") none
       = main_message_loop { (⟨[], [false], []⟩ : World) with sendScript := [] }
           [] (some "x") none) :=
  ⟨rfl, C8_failed_send_no_reset ⟨[], [false], []⟩ [] [] (some "x") none rfl⟩

/-- Concrete instance of C9: a boundary frame does not disturb the stored
interim text. -/
theorem C9_boundary_keeps_stored_interim_witness :
    ([2] : List Nat) ≠ [] ∧
    (⟨[RecOutcome.boundary "ok"], [], []⟩ : World).recScript
      = RecOutcome.boundary "ok" :: [] ∧
    ∃ f2, process_audio_chunk ⟨[RecOutcome.boundary "ok"], [], []⟩ [2] (some "hi") none
      = ({ (⟨[RecOutcome.boundary "ok"], [], []⟩ : World) with recScript := [] },
         Except.ok (some "hi", f2)) :=
  ⟨by decide, rfl, C9_boundary_keeps_stored_interim ⟨[RecOutcome.boundary "ok"], [], []⟩
    [2] (some "hi") none "ok" [] (by decide) rfl⟩
